import Mathlib

/-!
Shallow embedding of the hivemind indexer (hive/indexer/community.py,
hive/indexer/steem_client.py, hive/indexer/core.py) and proofs about it.

Database tables are modelled as lists of row structures, dates as abstract
Nat stamps, Python dicts as association lists, and the generator /
retry-loop control flow as explicit recursion over the sequence of events
(fetched blocks, RPC attempt outcomes) that the real code consumes.
-/

namespace Hive

/-! Role and community-type constants (community.py lines 16-26). -/

def ROLE_OWNER : Int := 8
def ROLE_ADMIN : Int := 6
def ROLE_MOD : Int := 4
def ROLE_MEMBER : Int := 2
def ROLE_GUEST : Int := 0
def ROLE_MUTED : Int := -2

/-- The set of role values storable through ROLES (community.py line 16). -/
def roleValues : List Int := [8, 6, 4, 2, 0, -2]

def TYPE_TOPIC : Nat := 1
def TYPE_JOURNAL : Nat := 2
def TYPE_COUNCIL : Nat := 3

/-! Community name pattern: the regex hive-[123] followed by 4 to 6 more
digits, anchored at both ends (community.py line 76). -/

def communityNameChars : List Char → Bool
  | 'h' :: 'i' :: 'v' :: 'e' :: '-' :: t :: rest =>
      (t == '1' || t == '2' || t == '3') && rest.all Char.isDigit
        && decide (4 ≤ rest.length) && decide (rest.length ≤ 6)
  | _ => false

def communityNameMatch (s : String) : Bool := communityNameChars s.data

/-- Python int(name[5]): the community-type digit of a community name. -/
def typeIdOf (s : String) : Nat :=
  match s.data with
  | _ :: _ :: _ :: _ :: _ :: t :: _ => t.toNat - '0'.toNat
  | _ => 0

/-! Rows of hive_communities and hive_roles as touched by the code. -/

structure CommunityRow where
  id : Nat
  name : String
  type_id : Nat
  created_at : Nat
deriving DecidableEq, Repr

structure RoleRow where
  community_id : Nat
  account_id : Nat
  role_id : Int
  created_at : Nat
deriving DecidableEq, Repr

structure CommunityDB where
  communities : List CommunityRow
  roles : List RoleRow
deriving DecidableEq, Repr

namespace Community

/-- Community.register (community.py lines 67-88): for each newly
registered account name that matches the community pattern, insert a
hive_communities row (id = the account id, type_id = int(name[5])) and a
hive_roles row making the community account its own owner. -/
def register (getId : String → Nat) (date : Nat) (db : CommunityDB) :
    List String → CommunityDB
  | [] => db
  | name :: rest =>
      if communityNameMatch name then
        let _id := getId name
        register getId date
          { communities := db.communities ++ [⟨_id, name, typeIdOf name, date⟩],
            roles := db.roles ++ [⟨_id, _id, ROLE_OWNER, date⟩] } rest
      else
        register getId date db rest

/-- Community.get_user_role (community.py lines 120-129): the role_id row
for (community, account), defaulting to guest when the row is absent.
Python `x or ROLE_GUEST` also maps a stored 0 (falsy) to ROLE_GUEST. -/
def get_user_role (row : Option Int) : Int :=
  match row with
  | some v => if v == 0 then ROLE_GUEST else v
  | none => ROLE_GUEST

/-- Community.is_post_valid (community.py lines 131-153), with the role
lookup result passed in and the community type already decoded from the
name. A journal-community comment (non-empty parent author) falls through
to the final `role >= ROLE_GUEST` return, as does every type other than
journal and council. -/
def is_post_valid (type_id : Nat) (parent_author : String) (roleRow : Option Int) : Bool :=
  let role := get_user_role roleRow
  if type_id == TYPE_JOURNAL then
    if parent_author == "" then decide (ROLE_MEMBER ≤ role)
    else decide (ROLE_GUEST ≤ role)
  else if type_id == TYPE_COUNCIL then decide (ROLE_MEMBER ≤ role)
  else decide (ROLE_GUEST ≤ role)

end Community

/-- Helper: the rows added by Community.register, per matching name. -/
def registeredCommunityRow (getId : String → Nat) (date : Nat) (n : String) : CommunityRow :=
  ⟨getId n, n, typeIdOf n, date⟩

/-- Helper: the owner role row added by Community.register. -/
def registeredRoleRow (getId : String → Nat) (date : Nat) (n : String) : RoleRow :=
  ⟨getId n, getId n, ROLE_OWNER, date⟩

lemma register_characterization (getId : String → Nat) (date : Nat) :
    ∀ (names : List String) (db : CommunityDB),
      Community.register getId date db names =
        { communities := db.communities ++
            (names.filter communityNameMatch).map (registeredCommunityRow getId date),
          roles := db.roles ++
            (names.filter communityNameMatch).map (registeredRoleRow getId date) } := by
  intro names
  induction names with
  | nil => intro db; simp [Community.register]
  | cons n rest ih =>
      intro db
      by_cases h : communityNameMatch n = true
      · simp [Community.register, h, ih, registeredCommunityRow, registeredRoleRow]
      · simp [Community.register, h, ih]

/-- Claim C1: every name passed to Community.register that matches the
pattern hive-[123] followed by 4 to 6 digits yields exactly one new
hive_communities row whose id is the registering account's id and whose
type_id is the digit name[5], together with one hive_roles row with
community_id = account_id = that id and role_id = 8 (owner); names that do
not match the pattern are filtered out and create neither row. -/
theorem community_register_spec (getId : String → Nat) (date : Nat)
    (db : CommunityDB) (names : List String) :
    (Community.register getId date db names).communities =
        db.communities ++ (names.filter communityNameMatch).map
          (fun n => ⟨getId n, n, typeIdOf n, date⟩)
    ∧ (Community.register getId date db names).roles =
        db.roles ++ (names.filter communityNameMatch).map
          (fun n => ⟨getId n, getId n, ROLE_OWNER, date⟩) := by
  rw [register_characterization]
  exact ⟨rfl, rfl⟩

/-! Role lookup against the hive_roles table, and the setRole op. -/

/-- The SQL SELECT in Community.get_user_role: first role row for the
(community, account) pair, if any. -/
def db_find_role (roles : List RoleRow) (cid aid : Nat) : Option Int :=
  (roles.find? (fun r => r.community_id == cid && r.account_id == aid)).map
    (fun r => r.role_id)

/-- Community.get_user_role applied to the table. -/
def user_role (roles : List RoleRow) (cid aid : Nat) : Int :=
  Community.get_user_role (db_find_role roles cid aid)

/-- CommunityOp._validate_permissions, setRole branch
(community.py lines 423-429). -/
def validate_setRole (roles : List RoleRow) (cid actor_id account_id : Nat)
    (new_role : Int) : Bool :=
  let actor_role := user_role roles cid actor_id
  decide (ROLE_MOD ≤ actor_role) && decide (new_role < actor_role) &&
    (if actor_id == account_id then true
     else
       decide (user_role roles cid account_id < actor_role) &&
       decide (user_role roles cid account_id ≠ new_role))

/-- CommunityOp.process, setRole branch (community.py lines 281-284): the
SQL UPDATE of hive_roles sets role_id on rows matching (account_id,
community_id); rows that do not exist are not created. -/
def process_setRole (roles : List RoleRow) (cid account_id : Nat)
    (role_id : Int) : List RoleRow :=
  roles.map (fun r =>
    if r.account_id == account_id && r.community_id == cid then
      { r with role_id := role_id } else r)

/-- Claim C2 (divergence evidence): a setRole op from the community owner
(role 8) targeting account 42, which has no hive_roles row, passes
validation, yet the UPDATE leaves the table unchanged, so the target's
role remains guest (0) instead of the requested mod (4). Nothing but
community registration ever inserts hive_roles rows, so the claimed
post-state is unreachable. -/
theorem setRole_update_misses_rowless_target :
    validate_setRole [⟨1337, 1337, 8, 0⟩] 1337 1337 42 4 = true
    ∧ process_setRole [⟨1337, 1337, 8, 0⟩] 1337 42 4 = [⟨1337, 1337, 8, 0⟩]
    ∧ user_role (process_setRole [⟨1337, 1337, 8, 0⟩] 1337 42 4) 1337 42 = 0
    ∧ (0 : Int) ≠ 4 := by
  refine ⟨by decide, by decide, by decide, by decide⟩

lemma guest_iff_not_muted (r : Int) (h : r ∈ roleValues) :
    decide (ROLE_GUEST ≤ r) = decide (ROLE_MUTED < r) := by
  fin_cases h <;> decide

/-- Claim C3: in a journal community (type 2) a root post is valid iff the
author's role is at least MEMBER; in a council community (type 3) any post
or comment is valid iff the role is at least MEMBER; topic communities
(type 1) and journal comments are valid iff the author is not muted
(role above MUTED, equivalently at least GUEST over the storable role
values); a missing role row counts as GUEST. -/
theorem is_post_valid_spec (roleRow : Option Int) (pa : String)
    (h : ∀ v, roleRow = some v → v ∈ roleValues) :
    (Community.is_post_valid TYPE_JOURNAL "" roleRow
        = decide (ROLE_MEMBER ≤ Community.get_user_role roleRow))
    ∧ (pa ≠ "" → Community.is_post_valid TYPE_JOURNAL pa roleRow
        = decide (ROLE_MUTED < Community.get_user_role roleRow))
    ∧ (Community.is_post_valid TYPE_COUNCIL pa roleRow
        = decide (ROLE_MEMBER ≤ Community.get_user_role roleRow))
    ∧ (Community.is_post_valid TYPE_TOPIC pa roleRow
        = decide (ROLE_MUTED < Community.get_user_role roleRow))
    ∧ Community.get_user_role none = ROLE_GUEST := by
  have hrole : Community.get_user_role roleRow ∈ roleValues := by
    cases roleRow with
    | none => decide
    | some v =>
        have hv := h v rfl
        simp only [Community.get_user_role]
        split
        · decide
        · exact hv
  refine ⟨rfl, ?_, rfl, ?_, rfl⟩
  · intro hpa
    simp only [Community.is_post_valid, TYPE_JOURNAL,
      show (pa == "") = false from beq_eq_false_iff_ne.mpr hpa]
    exact guest_iff_not_muted _ hrole
  · exact guest_iff_not_muted _ hrole

/-- Witness for C3 at a concrete input: a member (role 2) commenting in a
journal community is judged by the not-muted rule. -/
theorem is_post_valid_spec_witness :
    Community.is_post_valid TYPE_JOURNAL "someparent" (some 2)
      = decide (ROLE_MUTED < Community.get_user_role (some 2)) := by
  refine (is_post_valid_spec (some 2) "someparent" ?_).2.1 (by decide)
  intro v hv
  injection hv with h2
  subst h2
  decide

/-! Python dict values as far as the validators inspect them: a string, or
anything else (read_key_str only distinguishes str from non-str). -/

inductive PyVal where
  | str (s : String)
  | other
deriving DecidableEq, Repr

/-- Python dict lookup on an association list (first match wins). -/
def pyGet : List (String × PyVal) → String → Option PyVal
  | [], _ => none
  | (k, v) :: rest, key => if k == key then some v else pyGet rest key

/-- read_key_str (community.py lines 44-50): absent key gives None; a
present key must be a non-blank str. -/
def read_key_str (op : List (String × PyVal)) (key : String) :
    Except String (Option String) :=
  match pyGet op key with
  | none => Except.ok none
  | some (PyVal.str s) =>
      if s == "" then Except.error "key was blank" else Except.ok (some s)
  | some PyVal.other => Except.error "key was not str"

/-- Python str.strip on the character list: drop whitespace from both
ends. -/
def stripChars (cs : List Char) : List Char :=
  ((cs.dropWhile Char.isWhitespace).reverse.dropWhile Char.isWhitespace).reverse

/-- Python str.strip. -/
def pyStrip (s : String) : String := String.mk (stripChars s.data)

/-- CommunityOp._read_title (community.py lines 396-399): take the title
key (defaulting to an empty string), strip it, and require the stripped
length to be strictly under 32. -/
def read_title (op : List (String × PyVal)) : Except String String :=
  match read_key_str op "title" with
  | Except.error e => Except.error e
  | Except.ok t =>
      let s := pyStrip (t.getD "")
      if s.length < 32 then Except.ok s
      else Except.error "user title must be under 32 characters"

/-- Claim C9 (counterexample): a trimmed title of exactly 32 characters is
rejected by the `len(title) < 32` assertion, so the claim that 32
characters are accepted is false on the code. -/
theorem read_title_rejects_32_chars :
    read_title [("title", PyVal.str (String.mk (List.replicate 32 'a')))]
      = Except.error "user title must be under 32 characters" := rfl

/-- Claim C9 (amended): a non-blank title whose stripped length is at most
31 characters passes (yielding the stripped title), and one whose stripped
length is 32 or more fails. -/
theorem read_title_spec (s : String) (hs : s ≠ "") :
    ((pyStrip s).length < 32 →
        read_title [("title", PyVal.str s)] = Except.ok (pyStrip s))
    ∧ (32 ≤ (pyStrip s).length →
        read_title [("title", PyVal.str s)]
          = Except.error "user title must be under 32 characters") := by
  have hbeq : (s == "") = false := beq_eq_false_iff_ne.mpr hs
  constructor <;> intro h
  · simp [read_title, read_key_str, pyGet, hbeq, h]
  · simp [read_title, read_key_str, pyGet, hbeq, Nat.not_lt.mpr h]

/-- Witness for the amended C9 at a concrete input. -/
theorem read_title_spec_witness :
    read_title [("title", PyVal.str "  hello  ")] = Except.ok "hello"
    ∧ read_title [("title", PyVal.str (String.mk (List.replicate 40 'b')))]
        = Except.error "user title must be under 32 characters" := by
  constructor
  · have h := (read_title_spec "  hello  " (by decide)).1 (by decide)
    rw [show pyStrip "  hello  " = "hello" from by decide] at h
    exact h
  · exact (read_title_spec (String.mk (List.replicate 40 'b'))
      (by decide)).2 (by decide)

/-! CommunityOp._read_settings (community.py lines 402-415). -/

/-- The keys _read_settings reads out of the parsed settings JSON. -/
def allowedSettingsKeys : List String :=
  ["title", "about", "description", "flag_text", "language", "nsfw",
   "bg_color", "bg_color2", "primary_tag"]

structure SettingsDict where
  title : Option String
  about : Option String
  description : Option String
  flag_text : Option String
  language : Option String
  nsfw : Option String
  bg_color : Option String
  bg_color2 : Option String
  primary_tag : Option String
deriving DecidableEq, Repr

/-- read_key_json (community.py lines 52-61) on the already-attempted
parse of the settings payload: a parse failure leaves the blank dict,
and a blank dict fails the assertion. -/
def read_key_json (parsed : Option (List (String × PyVal))) :
    Except String (List (String × PyVal)) :=
  let ret := parsed.getD []
  if ret == [] then Except.error "json key was blank" else Except.ok ret

/-- CommunityOp._read_settings body: read the nine known keys through
read_key_str; keys outside the set are never consulted. -/
def read_settings_fields (st : List (String × PyVal)) :
    Except String SettingsDict := do
  let titleF ← read_key_str st "title"
  let aboutF ← read_key_str st "about"
  let descF ← read_key_str st "description"
  let flagF ← read_key_str st "flag_text"
  let langF ← read_key_str st "language"
  let nsfwF ← read_key_str st "nsfw"
  let bgF ← read_key_str st "bg_color"
  let bg2F ← read_key_str st "bg_color2"
  let ptagF ← read_key_str st "primary_tag"
  pure ⟨titleF, aboutF, descF, flagF, langF, nsfwF, bgF, bg2F, ptagF⟩

/-- The whole settings path of CommunityOp._read_schema: parse via
read_key_json, then read the fields. -/
def read_settings (parsed : Option (List (String × PyVal))) :
    Except String SettingsDict := do
  let st ← read_key_json parsed
  read_settings_fields st

/-- Claim C8 (counterexample): a settings payload carrying the unknown key
`evil` passes validation; only the nine known keys are read and unknown
keys are silently ignored (the code's validation is a TODO), so the claim
that extra keys fail the op is false. -/
theorem read_settings_accepts_unknown_key :
    read_settings (some [("title", PyVal.str "x"), ("evil", PyVal.str "y")])
      = Except.ok ⟨some "x", none, none, none, none, none, none, none, none⟩ := rfl

lemma read_key_str_congr {st st' : List (String × PyVal)} (k : String)
    (h : pyGet st k = pyGet st' k) : read_key_str st k = read_key_str st' k := by
  simp [read_key_str, h]

/-- Claim C8 (amended): _read_settings depends only on the nine allowed
keys: any two settings payloads agreeing on those keys validate
identically, so keys outside the set are ignored rather than rejected;
failures come only from a blank or unparseable payload or from a known key
holding a non-string or blank value. -/
theorem read_settings_ignores_unknown_keys (st st' : List (String × PyVal))
    (h : ∀ k ∈ allowedSettingsKeys, pyGet st k = pyGet st' k) :
    read_settings_fields st = read_settings_fields st' := by
  have h1 := read_key_str_congr "title" (h _ (by decide))
  have h2 := read_key_str_congr "about" (h _ (by decide))
  have h3 := read_key_str_congr "description" (h _ (by decide))
  have h4 := read_key_str_congr "flag_text" (h _ (by decide))
  have h5 := read_key_str_congr "language" (h _ (by decide))
  have h6 := read_key_str_congr "nsfw" (h _ (by decide))
  have h7 := read_key_str_congr "bg_color" (h _ (by decide))
  have h8 := read_key_str_congr "bg_color2" (h _ (by decide))
  have h9 := read_key_str_congr "primary_tag" (h _ (by decide))
  simp only [read_settings_fields, h1, h2, h3, h4, h5, h6, h7, h8, h9]

/-- Witness for the amended C8: dropping the unknown key `evil` does not
change the validation result. -/
theorem read_settings_ignores_unknown_keys_witness :
    read_settings_fields [("title", PyVal.str "x"), ("evil", PyVal.str "y")]
      = read_settings_fields [("title", PyVal.str "x")] := by
  exact read_settings_ignores_unknown_keys _ _ (by decide)

/-! SteemClient.__exec (steem_client.py lines 288-307): the single-call
retry loop, driven by the sequence of outcomes the transport produces on
successive attempts. -/

inductive RpcAttempt where
  | transportErr
  | val (r : List Nat)
deriving DecidableEq, Repr

/-- An attempt leaves the try-block normally iff no RPCError was raised
and the response is non-empty, except that get_block tolerates an empty
response (the `if method != 'get_block': assert result` guard). -/
def attemptOk (method : String) (a : RpcAttempt) : Bool :=
  match a with
  | RpcAttempt.transportErr => false
  | RpcAttempt.val r => method == "get_block" || !r.isEmpty

def attemptVal : RpcAttempt → List Nat
  | RpcAttempt.transportErr => []
  | RpcAttempt.val r => r

/-- The while-True loop of __exec: on each failing attempt increment
`tries`, record a sleep of tries/10 seconds (stored here in tenths), and
retry; return the first successful result. A `none` first component means
the oracle of attempt outcomes ran out while the loop was still
retrying. -/
def exec_loop (method : String) : List RpcAttempt → Nat → Option (List Nat) × List Nat
  | [], _ => (none, [])
  | a :: rest, tries =>
      if attemptOk method a then (some (attemptVal a), [])
      else
        let t := tries + 1
        let p := exec_loop method rest t
        (p.1, t :: p.2)

/-- SteemClient.__exec: the loop starting from tries = 0. -/
def steem_exec (method : String) (attempts : List RpcAttempt) :
    Option (List Nat) × List Nat :=
  exec_loop method attempts 0

/-- SteemClient.get_accounts (steem_client.py lines 119-124): run __exec,
then assert the record count matches the request, OUTSIDE the retry
loop. -/
def get_accounts (names : List Nat) (attempts : List RpcAttempt) :
    Option (Except String (List Nat)) × List Nat :=
  match steem_exec "get_accounts" attempts with
  | (none, sl) => (none, sl)
  | (some r, sl) =>
      (some (if r.length == names.length then Except.ok r
             else Except.error "get_accounts length mismatch"), sl)

/-- Claim C6 (counterexample): get_accounts for one name receives a
non-empty two-record response; __exec accepts it without retrying (no
sleeps), and the record-count assertion then fails OUTSIDE the retry loop,
propagating as an error even though a further attempt was available. The
claim that this assertion is treated as retriable is false. -/
theorem get_accounts_assert_propagates :
    get_accounts [1] [RpcAttempt.val [7, 8], RpcAttempt.val [7]]
      = (some (Except.error "get_accounts length mismatch"), []) := rfl

lemma range_map_shift (n k : Nat) :
    (List.range (n + 1)).map (fun i => k + i + 1)
      = (k + 1) :: (List.range n).map (fun i => (k + 1) + i + 1) := by
  rw [List.range_succ_eq_map, List.map_cons, List.map_map]
  congr 1
  apply List.map_congr_left
  intro i _
  simp [Function.comp]
  omega

lemma exec_loop_spec (method : String) (r : List Nat) (rest : List RpcAttempt)
    (hr : attemptOk method (RpcAttempt.val r) = true) :
    ∀ (pre : List RpcAttempt) (k : Nat), (∀ a ∈ pre, attemptOk method a = false) →
      exec_loop method (pre ++ RpcAttempt.val r :: rest) k
        = (some r, (List.range pre.length).map (fun i => k + i + 1)) := by
  intro pre
  induction pre with
  | nil =>
      intro k _
      simp [exec_loop, hr, attemptVal]
  | cons a pre ih =>
      intro k hall
      have ha : attemptOk method a = false := hall a (List.mem_cons_self a pre)
      have hrec := ih (k + 1) (fun b hb => hall b (List.mem_cons_of_mem a hb))
      simp [exec_loop, ha, hrec, List.length_cons, range_map_shift]

/-- Claim C6 (amended): transport errors and empty responses retry
indefinitely, sleeping tries/10 seconds (recorded in tenths) after the
tries-th failure; get_block may return an empty result with no retry;
for every other method an attempt succeeds iff its response is non-empty;
but the get_accounts record-count assertion runs after the retry loop and
propagates without consuming further attempts. -/
theorem exec_retry_spec :
    (∀ (method : String) (pre : List RpcAttempt) (r : List Nat)
        (rest : List RpcAttempt),
        (∀ a ∈ pre, attemptOk method a = false) →
        attemptOk method (RpcAttempt.val r) = true →
        steem_exec method (pre ++ RpcAttempt.val r :: rest)
          = (some r, (List.range pre.length).map (fun i => i + 1)))
    ∧ (∀ rest, steem_exec "get_block" (RpcAttempt.val [] :: rest) = (some [], []))
    ∧ (∀ (method : String) (r : List Nat), method ≠ "get_block" →
        (attemptOk method (RpcAttempt.val r) = true ↔ r ≠ []))
    ∧ (∀ (names r : List Nat) (rest : List RpcAttempt),
        attemptOk "get_accounts" (RpcAttempt.val r) = true →
        r.length ≠ names.length →
        get_accounts names (RpcAttempt.val r :: rest)
          = (some (Except.error "get_accounts length mismatch"), [])) := by
  refine ⟨?_, ?_, ?_, ?_⟩
  · intro method pre r rest hall hr
    have h := exec_loop_spec method r rest hr pre 0 hall
    simpa [steem_exec] using h
  · intro rest
    simp [steem_exec, exec_loop, attemptOk, attemptVal]
  · intro method r hm
    have : (method == "get_block") = false := beq_eq_false_iff_ne.mpr hm
    simp [attemptOk, this]
  · intro names r rest hok hlen
    have : (r.length == names.length) = false := beq_eq_false_iff_ne.mpr hlen
    simp [get_accounts, steem_exec, exec_loop, hok, attemptVal, this]

/-- Witness for the amended C6: two failures (a transport error, then an
empty response) followed by a success; sleeps of 1 and 2 tenths are
recorded and the third response is returned. -/
theorem exec_retry_spec_witness :
    steem_exec "get_content"
      [RpcAttempt.transportErr, RpcAttempt.val [], RpcAttempt.val [5]]
      = (some [5], [1, 2])
    ∧ steem_exec "get_block" [RpcAttempt.val []] = (some [], [])
    ∧ (attemptOk "get_content" (RpcAttempt.val [5]) = true ↔ [5] ≠ ([] : List Nat))
    ∧ get_accounts [1] [RpcAttempt.val [7, 8]]
        = (some (Except.error "get_accounts length mismatch"), []) := by
  refine ⟨?_, exec_retry_spec.2.1 [], exec_retry_spec.2.2.1 "get_content" [5]
    (by decide), exec_retry_spec.2.2.2 [1] [7, 8] [] (by decide) (by decide)⟩
  have h := exec_retry_spec.1 "get_content"
    [RpcAttempt.transportErr, RpcAttempt.val []] [5] [] (by decide) (by decide)
  simpa using h

/-! Checkpoint replay (core.py lines 100-124). -/

/-- Structural chunker equivalent to funcy partition_all: split a list
into consecutive runs of `n` (last run may be shorter). The accumulator
holds the current run reversed; the counter holds its remaining
capacity. -/
def chunksGo {α : Type} (n : Nat) : List α → List α → Nat → List (List α)
  | [], cur, _ => if cur.isEmpty then [] else [cur.reverse]
  | x :: xs, cur, 0 => cur.reverse :: chunksGo n xs [x] (n - 1)
  | x :: xs, cur, i + 1 => chunksGo n xs (x :: cur) i

def chunksOf {α : Type} (n : Nat) (l : List α) : List (List α) :=
  chunksGo n l [] n

lemma chunksGo_flatten {α : Type} (n : Nat) :
    ∀ (l cur : List α) (i : Nat), (chunksGo n l cur i).flatten = cur.reverse ++ l := by
  intro l
  induction l with
  | nil =>
      intro cur i
      by_cases h : cur.isEmpty
      · simp [chunksGo, h, List.isEmpty_iff.mp h]
      · simp [chunksGo, h]
  | cons x xs ih =>
      intro cur i
      cases i with
      | zero => simp [chunksGo, ih]
      | succ i => simp [chunksGo, ih]

lemma chunksOf_flatten {α : Type} (n : Nat) (l : List α) :
    (chunksOf n l).flatten = l := by
  simp [chunksOf, chunksGo_flatten]

/-- sync_from_file (core.py lines 118-124): drop the already-seen lines,
then hand each chunk to process_blocks; the Bool records the
is_initial_sync flag passed along (always true here). -/
def sync_from_file {β : Type} (file : List β) (skip_lines chunk_size : Nat) :
    List (List β × Bool) :=
  (chunksOf chunk_size (file.drop skip_lines)).map (fun c => (c, true))

/-- sync_from_checkpoints (core.py lines 100-115): walk the sorted
checkpoint files tracking (last_block, last_read); each file whose number
exceeds last_block produces a sync_from_file call with
skip_lines = last_block - last_read and chunk size 250. The emitted
triples are (file number, skip_lines, chunk_size). -/
def sync_from_checkpoints_calls {β : Type} :
    Nat → Nat → List (Nat × List β) → List (Nat × Nat × Nat)
  | _, _, [] => []
  | last_block, last_read, (num, _f) :: rest =>
      if last_block < num then
        (num, last_block - last_read, 250) ::
          sync_from_checkpoints_calls num num rest
      else
        sync_from_checkpoints_calls last_block num rest

def sync_from_checkpoints {β : Type} (last_block : Nat)
    (files : List (Nat × List β)) : List (Nat × Nat × Nat) :=
  sync_from_checkpoints_calls last_block 0 files

/-- Claim C7 (counterexample): with stored head 500 and files 500 and
1000, the loader issues exactly one call, for file 1000, skipping 0 lines
with chunk size 250, not 1000 as claimed. -/
theorem checkpoint_chunk_size_not_1000 :
    sync_from_checkpoints 500 [(500, ([] : List Nat)), (1000, [])]
        = [(1000, 0, 250)]
    ∧ sync_from_checkpoints 500 [(500, ([] : List Nat)), (1000, [])]
        ≠ [(1000, 0, 1000)] := by
  exact ⟨rfl, by decide⟩

/-- Claim C7 (amended): every emitted checkpoint load uses chunk size 250;
with stored head 500 and a 1000 file preceded by file number 500 the
loader skips 0 lines; sync_from_file streams exactly the lines after
skip_lines, in chunks whose concatenation is that remainder, each
processed with is_initial_sync = true. -/
theorem sync_checkpoints_spec :
    (∀ (lb lr : Nat) (files : List (Nat × List Nat)) c,
        c ∈ sync_from_checkpoints_calls lb lr files → c.2.2 = 250)
    ∧ (∀ (g f : List Nat),
        sync_from_checkpoints 500 [(500, g), (1000, f)] = [(1000, 0, 250)])
    ∧ (∀ (f : List Nat) (skip : Nat),
        ((sync_from_file f skip 250).map Prod.fst).flatten = f.drop skip)
    ∧ (∀ (f : List Nat) (skip : Nat) c,
        c ∈ sync_from_file f skip 250 → c.2 = true) := by
  refine ⟨?_, ?_, ?_, ?_⟩
  · intro lb lr files
    induction files generalizing lb lr with
    | nil => intro c hc; simp [sync_from_checkpoints_calls] at hc
    | cons p rest ih =>
        intro c hc
        obtain ⟨num, f⟩ := p
        by_cases h : lb < num
        · simp [sync_from_checkpoints_calls, h] at hc
          rcases hc with rfl | hc
          · rfl
          · exact ih num num c hc
        · simp [sync_from_checkpoints_calls, h] at hc
          exact ih lb num c hc
  · intro g f; rfl
  · intro f skip
    simp [sync_from_file, List.map_map, Function.comp_def, chunksOf_flatten]
  · intro f skip c hc
    simp [sync_from_file] at hc
    obtain ⟨chunk, _, rfl⟩ := hc
    rfl

/-- Witness for the amended C7 at the S4 concrete input: a 500-line file
for block 1000 over stored head 500 is loaded with skip 0 and processes
all 500 blocks. -/
theorem sync_checkpoints_spec_witness :
    sync_from_checkpoints 500 [(500, ([] : List Nat)), (1000, List.range 500)]
        = [(1000, 0, 250)]
    ∧ ((sync_from_file (List.range 500) 0 250).map Prod.fst).flatten
        = List.range 500
    ∧ (1000, 0, 250).2.2 = 250
    ∧ (([5, 6], true) : List Nat × Bool).2 = true := by
  refine ⟨sync_checkpoints_spec.2.1 _ _, ?_, ?_, ?_⟩
  · have h := sync_checkpoints_spec.2.2.1 (List.range 500) 0
    simpa using h
  · exact sync_checkpoints_spec.1 500 0 [(500, ([] : List Nat)), (1000, [])]
      (1000, 0, 250) (by decide)
  · exact sync_checkpoints_spec.2.2.2 [5, 6] 0 ([5, 6], true) (by decide)

/-! sync_from_steemd (core.py lines 127-153): the fast-sync loop
`while lbound < ubound: to = min(lbound + 1000, ubound); fetch
[lbound, to); lbound = to` with ubound = last_irreversible. -/

def syncRanges (lb ub : Nat) : List (Nat × Nat) :=
  if lb < ub then
    (lb, min (lb + 1000) ub) :: syncRanges (min (lb + 1000) ub) ub
  else []
termination_by ub - lb
decreasing_by omega

/-- All block numbers fetched by the loop: each range is half-open, as
get_blocks_range (steem_client.py line 263) documents. -/
def syncFetched (lb ub : Nat) : List Nat :=
  ((syncRanges lb ub).map (fun r => List.range' r.1 (r.2 - r.1))).flatten

theorem syncFetched_eq (lb ub : Nat) :
    syncFetched lb ub = List.range' lb (ub - lb) := by
  rw [syncFetched, syncRanges]
  split
  next h =>
    simp only [List.map_cons, List.flatten_cons]
    have hrec := syncFetched_eq (min (lb + 1000) ub) ub
    rw [syncFetched] at hrec
    rw [hrec]
    have h1 : lb + (min (lb + 1000) ub - lb) = min (lb + 1000) ub := by omega
    calc List.range' lb (min (lb + 1000) ub - lb)
          ++ List.range' (min (lb + 1000) ub) (ub - min (lb + 1000) ub)
        = List.range' lb (min (lb + 1000) ub - lb)
          ++ List.range' (lb + (min (lb + 1000) ub - lb))
              (ub - min (lb + 1000) ub) := by rw [h1]
      _ = List.range' lb
            ((ub - min (lb + 1000) ub) + (min (lb + 1000) ub - lb)) :=
          List.range'_append_1 ..
      _ = List.range' lb (ub - lb) := by congr 1; omega
  next h =>
    simp [show ub - lb = 0 from by omega]
termination_by ub - lb
decreasing_by omega

lemma foldl_max_range' :
    ∀ (n s a : Nat), (List.range' s n).foldl max a
      = if n = 0 then a else max a (s + n - 1) := by
  intro n
  induction n with
  | zero => intro s a; simp
  | succ n ih =>
      intro s a
      rw [List.range'_succ]
      simp only [List.foldl_cons, ih]
      by_cases hn : n = 0
      · rw [if_pos hn, if_neg (by omega : ¬ n + 1 = 0)]
        omega
      · rw [if_neg hn, if_neg (by omega : ¬ n + 1 = 0)]
        omega

/-- Claim C10: fast-sync fetches exactly the block numbers in the
half-open interval from the first missing block up to (but excluding)
last_irreversible; the block numbered last_irreversible itself is never
fetched, and when the store starts behind, the stored head after the loop
is last_irreversible - 1. -/
theorem sync_from_steemd_spec (head ub : Nat) :
    syncFetched (head + 1) ub = List.range' (head + 1) (ub - (head + 1))
    ∧ ub ∉ syncFetched (head + 1) ub
    ∧ (head + 1 < ub →
        (syncFetched (head + 1) ub).foldl max head = ub - 1) := by
  refine ⟨syncFetched_eq _ _, ?_, ?_⟩
  · rw [syncFetched_eq]
    intro hmem
    rw [List.mem_range'_1] at hmem
    omega
  · intro h
    rw [syncFetched_eq, foldl_max_range']
    split <;> omega

/-- Witness for C10: with stored head 5 and last_irreversible 9, the loop
fetches exactly blocks 6, 7, 8; block 9 is not fetched and the final head
is 8. -/
theorem sync_from_steemd_spec_witness :
    syncFetched 6 9 = [6, 7, 8]
    ∧ (9 : Nat) ∉ syncFetched 6 9
    ∧ (syncFetched 6 9).foldl max 5 = 8 := by
  obtain ⟨h1, h2, h3⟩ := sync_from_steemd_spec 5 9
  exact ⟨h1.trans (by decide), h2, h3 (by decide)⟩

/-! SteemClient.stream_blocks (steem_client.py lines 143-210): the live
block stream. Timing, slot scheduling and empty-fetch retries do not
change which blocks are appended or yielded, so the embedding consumes
the sequence of successfully fetched blocks; the code forces the fetched
numbers to be consecutive (block_num = last num + 1). -/

structure SBlk where
  num : Nat
  block_id : Nat
  previous : Nat
deriving DecidableEq, Repr

inductive StreamEnd where
  | ranOut
  | aborted
  | forkError
deriving DecidableEq, Repr

/-- One pass of the stream loop per fetched block: a block whose previous
hash does not match the last accepted hash aborts (queue non-empty) or
raises (queue empty); a linking block is appended to the trail queue, and
once the queue exceeds trail_blocks the oldest queued block is yielded. -/
def streamRun (trail : Nat) (lastHash : Nat) (queue out : List SBlk) :
    List SBlk → List SBlk × StreamEnd
  | [] => (out, StreamEnd.ranOut)
  | b :: rest =>
      if lastHash ≠ b.previous then
        if queue.isEmpty then (out, StreamEnd.forkError)
        else (out, StreamEnd.aborted)
      else
        let q := queue ++ [b]
        if trail < q.length then
          streamRun trail b.block_id (q.drop 1) (out ++ q.take 1) rest
        else
          streamRun trail b.block_id q out rest

/-- stream_blocks entry: the leading `assert trail_blocks >= 0` and
`assert trail_blocks < 25`, then the loop. -/
def stream_blocks (trail : Int) (lastHash : Nat) (bs : List SBlk) :
    Except String (List SBlk × StreamEnd) :=
  if 0 ≤ trail ∧ trail < 25 then
    Except.ok (streamRun trail.toNat lastHash [] [] bs)
  else Except.error "assert trail_blocks"

/-- The fetched sequence links hash-wise onto the given last hash. -/
def linksB (h : Nat) : List SBlk → Bool
  | [] => true
  | b :: rest => (b.previous == h) && linksB b.block_id rest

/-- A fork-free fetched sequence: consecutive numbers starting at
`start`, each block's previous hash naming its predecessor. -/
def chain (start : Nat) : Nat → List SBlk
  | 0 => []
  | n + 1 => ⟨start, start, start - 1⟩ :: chain (start + 1) n

lemma streamRun_links (trail : Nat) :
    ∀ (bs : List SBlk) (h : Nat) (q out : List SBlk),
      linksB h bs = true → q.length ≤ trail →
      streamRun trail h q out bs
        = (out ++ (q ++ bs).take (q.length + bs.length - trail),
           StreamEnd.ranOut) := by
  intro bs
  induction bs with
  | nil =>
      intro h q out _ hq
      simp [streamRun, Nat.sub_eq_zero_of_le hq]
  | cons b rest ih =>
      intro h q out hlink hq
      simp only [linksB, Bool.and_eq_true, beq_iff_eq] at hlink
      obtain ⟨hprev, hrest⟩ := hlink
      rw [streamRun, if_neg (by simp [hprev])]
      have hq1 : (q ++ [b]).length = q.length + 1 := by
        simp only [List.length_append, List.length_cons, List.length_nil]
      by_cases hlen : trail < (q ++ [b]).length
      · rw [if_pos hlen]
        rw [hq1] at hlen
        have hqt : q.length = trail := by omega
        have hq' : ((q ++ [b]).drop 1).length ≤ trail := by
          simp only [List.length_drop, hq1]
          omega
        rw [ih b.block_id _ _ hrest hq']
        have hdl : ((q ++ [b]).drop 1).length = q.length := by
          simp only [List.length_drop, hq1]
          omega
        rw [hdl]
        rw [show q.length + rest.length - trail = rest.length from by omega]
        rw [show q.length + (b :: rest).length - trail = 1 + rest.length from by
          simp only [List.length_cons]; omega]
        rw [show q ++ b :: rest = (q ++ [b]) ++ rest from by simp]
        rw [List.take_add,
          List.take_append_of_le_length
            (by rw [hq1]; omega : (1 : Nat) ≤ (q ++ [b]).length),
          List.drop_append_of_le_length
            (by rw [hq1]; omega : (1 : Nat) ≤ (q ++ [b]).length)]
        simp [List.append_assoc]
      · rw [if_neg hlen]
        rw [ih b.block_id _ _ hrest (by omega : (q ++ [b]).length ≤ trail)]
        rw [show (q ++ [b]) ++ rest = q ++ b :: rest from by simp]
        rw [show (q ++ [b]).length + rest.length - trail
            = q.length + (b :: rest).length - trail from by
          simp only [hq1, List.length_cons]; omega]

lemma linksB_chain : ∀ (n start : Nat), linksB (start - 1) (chain start n) = true := by
  intro n
  induction n with
  | zero => intro start; rfl
  | succ n ih =>
      intro start
      have h := ih (start + 1)
      simp only [Nat.add_sub_cancel] at h
      simp [chain, linksB, h]

lemma chain_length (start n : Nat) : (chain start n).length = n := by
  induction n generalizing start with
  | zero => rfl
  | succ n ih => simp [chain, ih]

lemma chain_take : ∀ (n start k : Nat), (chain start n).take k = chain start (min k n) := by
  intro n
  induction n with
  | zero => intro start k; simp [chain]
  | succ n ih =>
      intro start k
      cases k with
      | zero => simp [chain]
      | succ k =>
          simp only [chain, List.take_succ_cons, ih]
          rw [show min (k + 1) (n + 1) = min k n + 1 from by omega]
          rfl

/-- Claim C4: with trail_blocks in [0, 25), streaming a fork-free fetched
sequence of n consecutive blocks starting at `start` yields exactly the
first n - trail_blocks of them, in strictly increasing consecutive order
(the emission of each block waits for trail_blocks further fetches);
outside [0, 25) the leading assertions fail and nothing is streamed. -/
theorem stream_blocks_spec (trail : Int) (start n : Nat) :
    (0 ≤ trail → trail < 25 →
        stream_blocks trail (start - 1) (chain start n)
          = Except.ok (chain start (n - trail.toNat), StreamEnd.ranOut))
    ∧ (¬ (0 ≤ trail ∧ trail < 25) →
        stream_blocks trail (start - 1) (chain start n)
          = Except.error "assert trail_blocks") := by
  constructor
  · intro h0 h25
    rw [stream_blocks, if_pos ⟨h0, h25⟩]
    rw [streamRun_links trail.toNat (chain start n) (start - 1) [] []
      (linksB_chain n start) (by simp)]
    rw [List.nil_append, List.nil_append, List.length_nil, Nat.zero_add,
      chain_length, chain_take]
    rw [show min (n - trail.toNat) n = n - trail.toNat from by omega]
  · intro h
    rw [stream_blocks, if_neg h]

/-- Witness for C4: trail_blocks = 2 over five fetched blocks 10..14
yields exactly blocks 10, 11, 12, and trail_blocks = 30 fails the
assertion. -/
theorem stream_blocks_spec_witness :
    stream_blocks 2 9 (chain 10 5)
        = Except.ok (chain 10 3, StreamEnd.ranOut)
    ∧ stream_blocks 30 9 (chain 10 5)
        = Except.error "assert trail_blocks" := by
  exact ⟨(stream_blocks_spec 2 10 5).1 (by decide) (by decide),
    (stream_blocks_spec 30 10 5).2 (by decide)⟩

/-- Claim C5: when a fetched block does not link (its previous hash
differs from the hash of the last accepted block), the stream yields
nothing further: with a non-empty trail queue it returns (aborted), with
an empty queue it raises the fork exception; in both cases the emitted
output is exactly what had already been yielded, so the non-linking block
is never yielded. -/
theorem stream_fork_spec (trail : Nat) (lastHash : Nat)
    (queue out rest : List SBlk) (b : SBlk)
    (hfork : b.previous ≠ lastHash) :
    (queue ≠ [] →
        streamRun trail lastHash queue out (b :: rest)
          = (out, StreamEnd.aborted))
    ∧ (queue = [] →
        streamRun trail lastHash queue out (b :: rest)
          = (out, StreamEnd.forkError))
    ∧ (streamRun trail lastHash queue out (b :: rest)).1 = out := by
  have hne : lastHash ≠ b.previous := fun h => hfork h.symm
  refine ⟨?_, ?_, ?_⟩
  · intro hqne
    rw [streamRun, if_pos hne, if_neg (by simpa [List.isEmpty_iff] using hqne)]
  · intro hqe
    rw [streamRun, if_pos hne, if_pos (by simpa [List.isEmpty_iff] using hqe)]
  · rw [streamRun, if_pos hne]
    by_cases hq : queue.isEmpty
    · rw [if_pos hq]
    · rw [if_neg hq]

/-- Witness for C5: a non-linking block with a non-empty trail queue
aborts, and with an empty queue raises; neither yields the block. -/
theorem stream_fork_spec_witness :
    streamRun 2 99 [⟨11, 99, 98⟩] [⟨10, 98, 97⟩] [⟨12, 55, 54⟩]
        = ([⟨10, 98, 97⟩], StreamEnd.aborted)
    ∧ streamRun 2 99 [] [⟨10, 98, 97⟩] [⟨12, 55, 54⟩]
        = ([⟨10, 98, 97⟩], StreamEnd.forkError) := by
  exact ⟨(stream_fork_spec 2 99 [⟨11, 99, 98⟩] [⟨10, 98, 97⟩] []
      ⟨12, 55, 54⟩ (by decide)).1 (by decide),
    (stream_fork_spec 2 99 [] [⟨10, 98, 97⟩] [] ⟨12, 55, 54⟩
      (by decide)).2.1 rfl⟩

end Hive
